import Mathlib

/-!
Verification of the join-notes file discovery and filtering engine.

Shallow embedding of the two generations of the discovery engine:
  * `src/concat-notes.py` (legacy walker, extension patterns, sidecar
    ignore list),
  * `src/note_concatenator/infrastructure/file_discovery.py` (v2 engine:
    `EnhancedIgnorePatternEngine`, `EnhancedFileDiscoveryEngine`,
    `FastFileContentReader`).

Paths are modelled as POSIX `'/'`-separated strings (the repository is
developed and run on Linux; `os.sep = '/'`, `os.path.normcase` is the
identity, `str(Path(...))` keeps forward slashes).  The Python
standard-library helpers used by the source (`str` methods,
`os.path.basename`, `pathlib.PurePath.suffix`, `os.path.normpath`,
`pathlib.PurePath.relative_to`, `fnmatch.fnmatch`, `sorted`) are embedded
below as structurally recursive functions on character lists, faithful to
CPython's documented POSIX behaviour, so that every closed application
evaluates inside the kernel.
-/

namespace JoinNotes

/-! ## Python string primitives -/

/-- Python `str.lower` (ASCII fold; `Char.toLower` lowers exactly `A`-`Z`,
which agrees with CPython on the ASCII strings the repository handles). -/
def pyLower (s : String) : String :=
  String.mk (s.data.map Char.toLower)

/-- Python `str.startswith`. -/
def pyStartsWith (s pre : String) : Bool :=
  pre.data.isPrefixOf s.data

/-- Python `str.endswith`. -/
def pyEndsWith (s suf : String) : Bool :=
  suf.data.isSuffixOf s.data

/-- Substring search on character lists: does `hay` contain `needle`?
An empty `needle` is contained in everything. -/
def listContainsSub (hay needle : List Char) : Bool :=
  match hay with
  | [] => needle.isEmpty
  | _ :: rest => needle.isPrefixOf hay || listContainsSub rest needle

/-- Python's `needle in hay` on strings. -/
def pyIn (needle hay : String) : Bool :=
  listContainsSub hay.data needle.data

/-- Split a character list at every occurrence of `sep`
(Python `str.split(sep)` for a one-character separator: `""` gives
`[""]`, `"a/"` gives `["a", ""]`). -/
def splitChar (sep : Char) : List Char → List (List Char)
  | [] => [[]]
  | c :: rest =>
    let r := splitChar sep rest
    if c == sep then [] :: r
    else
      match r with
      | [] => [[c]]
      | h :: t => (c :: h) :: t

/-- Python `path.split('/')`. -/
def pySplitSlash (s : String) : List String :=
  (splitChar '/' s.data).map String.mk

/-- Python `sep.join(parts)`. -/
def pyJoin (sep : String) : List String → String
  | [] => ""
  | [x] => x
  | x :: xs => x ++ sep ++ pyJoin sep xs

/-- The characters Python `str.strip()` removes (ASCII whitespace). -/
def pySpace (c : Char) : Bool :=
  c == ' ' || c == '\t' || c == '\n' || c == '\r' ||
  c == Char.ofNat 11 || c == Char.ofNat 12

/-- Python `str.strip()`. -/
def pyStrip (s : String) : String :=
  String.mk (((s.data.dropWhile pySpace).reverse.dropWhile pySpace).reverse)

/-- Code-point lexicographic order on character lists (how Python compares
strings). -/
def lexLe : List Char → List Char → Bool
  | [], _ => true
  | _ :: _, [] => false
  | a :: as, b :: bs => if a == b then lexLe as bs else a.toNat < b.toNat

/-- Python `s <= t` on strings. -/
def pyStrLe (a b : String) : Bool :=
  lexLe a.data b.data

/-- Insert into a sorted list, before the first element not below `a`
(the stable position). -/
def insertSortedBy (le : α → α → Bool) (a : α) : List α → List α
  | [] => [a]
  | b :: bs => if le a b then a :: b :: bs else b :: insertSortedBy le a bs

/-- Stable sort by insertion, processing from the right so earlier
elements land before equal later ones: extensionally Python's
`sorted(l, key=...)`. -/
def sortPyBy (le : α → α → Bool) (l : List α) : List α :=
  l.foldr (insertSortedBy le) []

/-! ## Python path primitives -/

/-- Python `os.path.basename` on a POSIX path string: everything after the last
`'/'` (the whole string when there is none). -/
def basename (p : String) : String :=
  ((pySplitSlash p).getLast?).getD ""

/-- Index of the last `'.'` in a character list (Python `str.rfind('.')`
restricted to found/not-found). -/
def lastDotIdx (cs : List Char) : Option Nat :=
  (List.range cs.length).foldl
    (fun acc i => if cs.getD i ' ' == '.' then some i else acc) none

/-- Python `pathlib.PurePath.suffix` of a file NAME: the part of the name from its
last dot, empty unless that dot sits strictly inside the name
(`0 < i < len(name) - 1`).  So `".env"` and `"a."` have suffix `""`,
`".env.local"` has suffix `".local"`. -/
def pySuffix (name : String) : String :=
  let cs := name.data
  match lastDotIdx cs with
  | none => ""
  | some i => if 0 < i && i + 1 < cs.length then String.mk (cs.drop i) else ""

/-- Python `str.lstrip('.')`: drop every leading `'.'`. -/
def lstripDots (s : String) : String :=
  String.mk (s.data.dropWhile (fun c => c == '.'))

/-- Python `os.path.normpath` for POSIX paths: drop empty and `'.'` components,
resolve `'..'` against preceding components (keeping leading `'..'`s of a
relative path), keep CPython's special case of exactly two leading
slashes, and render `""` as `"."`. -/
def normpath (p : String) : String :=
  if p == "" then "." else
  let initialSlashes : Nat :=
    if pyStartsWith p "/" then
      if pyStartsWith p "//" && !(pyStartsWith p "///") then 2 else 1
    else 0
  let comps := pySplitSlash p
  let newComps := comps.foldl
    (fun acc comp =>
      if comp == "" || comp == "." then acc
      else if comp != ".." || (initialSlashes == 0 && acc.isEmpty)
              || (!acc.isEmpty && acc.getLast? == some "..") then
        acc ++ [comp]
      else if !acc.isEmpty then acc.dropLast
      else acc)
    ([] : List String)
  let out := String.mk (List.replicate initialSlashes '/') ++ pyJoin "/" newComps
  if out == "" then "." else out

/-- Nonempty segments of a POSIX path string (the non-anchor entries of
`pathlib.PurePath.parts`). -/
def pathSegs (p : String) : List String :=
  (pySplitSlash p).filter (fun s => s != "")

/-- Python `pathlib.PurePath.relative_to`: defined (as `some`) exactly when the
base's parts are a segment-by-segment prefix of the path's parts (and the
two agree on absoluteness); pathlib's `ValueError` is `none`.  The empty
remainder renders as `"."`, as in pathlib. -/
def relativeTo (p base : String) : Option String :=
  if (pyStartsWith p "/") != (pyStartsWith base "/") then none
  else
    let ps := pathSegs p
    let bs := pathSegs base
    if bs.isPrefixOf ps then
      let rest := ps.drop bs.length
      some (if rest.isEmpty then "." else pyJoin "/" rest)
    else none

/-- Core of `fnmatch.fnmatch` on POSIX for patterns made of literals,
`'*'` and `'?'` (the only pattern characters the repository's
configuration uses): `'*'` matches any run of characters — including
`'/'`, since `fnmatch` gives the separator no special treatment — and
`'?'` matches exactly one character.  The fuel argument only bounds the
recursion: every recursive call shrinks `pattern.length + s.length`, so
with the fuel `globMatch` supplies the `0` case is unreachable. -/
def globMatchF : Nat → List Char → List Char → Bool
  | 0, _, _ => false
  | _ + 1, [], [] => true
  | fuel + 1, '*' :: ps, [] => globMatchF fuel ps []
  | fuel + 1, '*' :: ps, c :: cs =>
    globMatchF fuel ps (c :: cs) || globMatchF fuel ('*' :: ps) cs
  | fuel + 1, '?' :: ps, _c :: cs => globMatchF fuel ps cs
  | fuel + 1, p :: ps, c :: cs => (p == c) && globMatchF fuel ps cs
  | _ + 1, _ :: _, [] => false
  | _ + 1, [], _ :: _ => false

/-- Python `fnmatch.fnmatch(name, pattern)` on POSIX (no case folding). -/
def fnmatch (name pat : String) : Bool :=
  globMatchF (pat.data.length + name.data.length + 1) pat.data name.data

/-! ## Legacy engine: `src/concat-notes.py` -/

/-- Embeds `coincide_con_patron` (src/concat-notes.py:81-96): a filename matches a
pattern when its lowercase form ends with the lowercase pattern, or the
pattern is `".env"`/`".config"` and the name starts with the pattern
followed by a dot. -/
def coincide_con_patron (nombre_archivo patron : String) : Bool :=
  let nombre_lower := pyLower nombre_archivo
  let patron_lower := pyLower patron
  if pyEndsWith nombre_lower patron_lower then true
  else if (patron_lower == ".env" || patron_lower == ".config")
          && pyStartsWith nombre_lower (patron_lower ++ ".") then true
  else false

/-- The fixed built-in skip-set of `debe_ignorar_carpeta`
(src/concat-notes.py:133-147). -/
def carpetas_ignoradas : List String :=
  [".venv", "__pycache__", ".git", ".pytest_cache", "node_modules",
   ".idea", ".vscode", "venv", "env", ".mypy_cache"]

/-- Embeds `debe_ignorar_carpeta` (src/concat-notes.py:133-147). -/
def debe_ignorar_carpeta (nombre_carpeta : String) : Bool :=
  carpetas_ignoradas.contains nombre_carpeta

/-- Embeds `cargar_ignorados` (src/concat-notes.py:68-78), applied to the lines of
an existing `.notes-ignore` file: strip each line, drop blanks and `#`
comments, normalize the rest.  (The Python set is modelled as a list; only
membership is ever used.) -/
def cargar_ignorados (lines : List String) : List String :=
  ((lines.map pyStrip).filter
    (fun l => l != "" && !(pyStartsWith l "#"))).map normpath

/-- Embeds `esta_ignorado` (src/concat-notes.py:150-163): normalize the candidate,
then exact membership, then — for any entry — a plain string
`startswith` test against the normalized entry. -/
def esta_ignorado (path_relativo : String) (ignorados : List String) : Bool :=
  let p := normpath path_relativo
  if ignorados.contains p then true
  else ignorados.any (fun patron => pyStartsWith p (normpath patron))

/-- A directory tree as `os.walk` sees it: named subdirectories and the
names of the regular files at this level. -/
inductive DirTree where
  | node (subdirs : List (String × DirTree)) (files : List String)

mutual
/-- Embeds `recolectar_archivos_a_procesar` (src/concat-notes.py:99-130) on the
tree rooted at the search root, carrying the relative directory as a
segment list.  Mirrors the `os.walk` loop: subdirectories whose name is in
the built-in skip-set are pruned from descent; a directory whose relative
path is ignored contributes no files of its own but is still descended
into (the Python `continue` skips only the file loop); files are visited
in sorted order and kept when some extension pattern matches and the
relative path is not ignored.  Returns relative paths as segment lists. -/
def recolectar_archivos_a_procesar (t : DirTree)
    (rel_dir ignorados extensiones : List String) : List (List String) :=
  match t with
  | .node subdirs files =>
    let ruta_rel_carpeta :=
      if rel_dir.isEmpty then "." else pyJoin "/" rel_dir
    let aqui : List (List String) :=
      if ruta_rel_carpeta != "." && esta_ignorado ruta_rel_carpeta ignorados then
        []
      else
        (sortPyBy pyStrLe files).filterMap (fun archivo =>
          if extensiones.any (fun ext => coincide_con_patron archivo ext) then
            let ruta_relativa := rel_dir ++ [archivo]
            if esta_ignorado (pyJoin "/" ruta_relativa) ignorados then
              none
            else some ruta_relativa
          else none)
    aqui ++ recolectar_subcarpetas subdirs rel_dir ignorados extensiones

/-- Descent part of the walk: visit each subdirectory in listed order,
skipping those pruned by `debe_ignorar_carpeta`. -/
def recolectar_subcarpetas (subdirs : List (String × DirTree))
    (rel_dir ignorados extensiones : List String) : List (List String) :=
  match subdirs with
  | [] => []
  | (nombre, sub) :: resto =>
    (if debe_ignorar_carpeta nombre then []
     else recolectar_archivos_a_procesar sub (rel_dir ++ [nombre])
            ignorados extensiones)
    ++ recolectar_subcarpetas resto rel_dir ignorados extensiones
end

/-! ## v2 engine: `EnhancedIgnorePatternEngine` and
`EnhancedFileDiscoveryEngine` -/

/-- Embeds `EnhancedIgnorePatternEngine._matches_pattern`
(src/note_concatenator/infrastructure/file_discovery.py:74-96), by pattern
shape: trailing-slash directory patterns match against path segments,
`**` patterns glob against the whole path, single-`*` patterns glob
against the basename, anything else is a substring test. -/
def matches_pattern (path_str pattern : String) : Bool :=
  if pyEndsWith pattern "/" then
    let pattern_clean := String.mk pattern.data.dropLast
    (pySplitSlash path_str).any
      (fun part => part == pattern_clean || fnmatch part pattern_clean)
  else if pyIn "**" pattern then
    fnmatch path_str pattern
  else if pyIn "*" pattern then
    fnmatch (basename path_str) pattern
  else
    pyIn pattern path_str

/-- Embeds `GlobalExcludeConfig` (src/note_concatenator/domain/entities.py:45-53). -/
structure GlobalExcludeConfig where
  folders : List String
  files : List String

/-- The pydantic defaults of `GlobalExcludeConfig`. -/
def defaultGlobalExclude : GlobalExcludeConfig :=
  { folders := [".venv", "__pycache__/", "build/", "**/vendor/**"],
    files := ["**/*.min.js", "**/*.csv", "**/*.pyc"] }

/-- Embeds `EnhancedIgnorePatternEngine.should_ignore`
(src/note_concatenator/infrastructure/file_discovery.py:23-72): global
folder patterns, then global file patterns, then profile exclusions (a
file is excluded when `Path.relative_to` some exclusion path succeeds,
i.e. the exclusion is a segment prefix of the absolute path).  `rel_path`
is the candidate's path relative to the search root, `abs_path` its
absolute path. -/
def should_ignore (cfg : GlobalExcludeConfig) (profile_excludes : List String)
    (rel_path abs_path : String) : Bool :=
  if cfg.folders.any (fun pattern => matches_pattern rel_path pattern) then true
  else if cfg.files.any (fun pattern => matches_pattern rel_path pattern) then true
  else profile_excludes.any (fun ex => (relativeTo abs_path ex).isSome)

/-- Embeds `EnhancedFileDiscoveryEngine._matches_extension`
(src/note_concatenator/infrastructure/file_discovery.py:175-194), on the
file's NAME (the Python code reads `Path.suffix` and `Path.name`, which
depend only on the final path component): empty-suffix names match when
`""` is a spec; otherwise a spec matches on exact lowercase suffix
equality, or when the spec starts with a dot and the lowercase name
starts with the spec minus its leading dots. -/
def matches_extension (file_name : String) (extensions : List String) : Bool :=
  let file_ext := pyLower (pySuffix file_name)
  let name_lower := pyLower file_name
  if file_ext == "" && extensions.contains "" then true
  else
    extensions.any (fun ext =>
      let ext_lower := pyLower ext
      file_ext == ext_lower
        || (pyStartsWith ext_lower "."
            && pyStartsWith name_lower (lstripDots ext_lower)))

/-- One entry of the `Path.rglob('*')` enumeration under the search root:
its path relative to the root and whether it is a regular file. -/
structure V2Entry where
  relPath : String
  isFile : Bool

/-- The filesystem as `discover_files` observes it: whether the expanded
pattern path exists, whether it is a directory, and the `rglob`
enumeration of everything beneath it (in the filesystem's unspecified
`scandir` order — `rglob` guarantees no particular order). -/
structure V2FS where
  rootExists : Bool
  rootIsDir : Bool
  entries : List V2Entry

/-- Embeds `EnhancedFileDiscoveryEngine._find_files_in_directory`
(src/note_concatenator/infrastructure/file_discovery.py:131-173): walk
the `rglob` enumeration in order, keep regular files whose name matches
the extensions and which the ignore engine does not reject.  Returns the
kept entries' root-relative paths in enumeration order (the Python list
holds the corresponding absolute paths, in the same order). -/
def find_files_in_directory (fs : V2FS) (root : String)
    (extensions : List String) (cfg : GlobalExcludeConfig)
    (profile_excludes : List String) : List String :=
  (fs.entries.filter (fun e =>
      e.isFile
      && matches_extension (basename e.relPath) extensions
      && !(should_ignore cfg profile_excludes e.relPath
            (root ++ "/" ++ e.relPath)))).map
    (fun e => e.relPath)

/-- Embeds `EnhancedFileDiscoveryEngine.discover_files`
(src/note_concatenator/infrastructure/file_discovery.py:106-129): a
missing root yields `[]`; a directory root yields the filtered
enumeration; any other existing root (e.g. a regular file) also yields
`[]` — the `is_dir` branch is simply skipped.  The `Except` result makes
"raises" statable: the Python body contains no `raise`, and
`_find_files_in_directory` catches every exception of the scan, so every
branch is `.ok`. -/
def discover_files (fs : V2FS) (root : String) (extensions : List String)
    (cfg : GlobalExcludeConfig) (profile_excludes : List String) :
    Except String (List String) :=
  if !fs.rootExists then .ok []
  else if fs.rootIsDir then
    .ok (find_files_in_directory fs root extensions cfg profile_excludes)
  else .ok []

/-! ## v2 reader: `FastFileContentReader` -/

/-- The shape of a `FileInfo.content` string
(src/note_concatenator/domain/entities.py:13-21): decoded text, the
`"[File too large: ...MB > ...MB limit]"` substitute, the
`"[Error reading file: ...]"` substitute, or the literal
`"[Unable to decode file with common encodings]"` fallback.  The tags
keep the branch structure; the claims never depend on the exact rendering
of the two formatted messages. -/
inductive Content where
  | text (s : String)
  | tooLarge (size_bytes : Nat)
  | readError (msg : String)
  | undecodable
deriving DecidableEq

/-- Embeds `FileInfo` (src/note_concatenator/domain/entities.py:13-21), the
fields the reader populates. -/
structure FileInfo where
  relative_path : String
  content : Content
  name : String
  project_origin : String
  size_bytes : Option Nat
deriving DecidableEq

/-- A text codec as `open(..., encoding=...).read()` behaves: bytes in,
decoded text or a `UnicodeDecodeError` (`none`) out. -/
abbrev Codec := List (Fin 256) → Option String

/-- The `latin1` codec: every byte `b` decodes to the character `U+00b`;
in particular it never fails (CPython's `latin-1` charmap is total). -/
def latin1Decode : Codec := fun bytes =>
  some (String.mk (bytes.map (fun b => Char.ofNat b.val)))

/-- A codec accepting exactly ASCII input, on which it agrees with
`utf-8`, `utf-8-sig` (no BOM present) and `cp1252`: used to instantiate
those codec parameters at concrete ASCII inputs. -/
def asciiDecode : Codec := fun bytes =>
  if bytes.all (fun b => b.val < 128) then
    some (String.mk (bytes.map (fun b => Char.ofNat b.val)))
  else none

/-- The encoding loop of `FastFileContentReader._read_file_content`
(src/note_concatenator/infrastructure/file_discovery.py:236-249): try
each codec in order, first success wins. -/
def tryEncodings : List Codec → List (Fin 256) → Option String
  | [], _ => none
  | c :: cs, bytes =>
    match c bytes with
    | some s => some s
    | none => tryEncodings cs bytes

/-- Embeds `FastFileContentReader._read_file_content`: the encoding list is
`['utf-8', 'utf-8-sig', 'latin1', 'cp1252']`; the `utf-8`, `utf-8-sig`
and `cp1252` codecs are environment parameters, `latin1` is pinned to the
total charmap codec; when every attempt fails the literal decode-failure
message is returned (modelled as `.undecodable`). -/
def read_file_content (utf8 utf8sig cp1252 : Codec)
    (bytes : List (Fin 256)) : Content :=
  match tryEncodings [utf8, utf8sig, latin1Decode, cp1252] bytes with
  | some s => .text s
  | none => .undecodable

/-- What the filesystem does for one path when the reader touches it:
the outcome of `Path.stat()` (size, or an `OSError`) and of opening and
reading the raw bytes (an `OSError` on failure). -/
structure FileState where
  statResult : Except String Nat
  readResult : Except String (List (Fin 256))

/-- The filesystem as the reader observes it. -/
abbrev ReaderFS := List (String × FileState)

/-- Models `Path.stat().st_size`: a path the filesystem does not know raises
`FileNotFoundError`. -/
def statOf (rfs : ReaderFS) (p : String) : Except String Nat :=
  match rfs.lookup p with
  | none => .error "FileNotFoundError"
  | some st => st.statResult

/-- Opening and reading a path's raw bytes. -/
def bytesOf (rfs : ReaderFS) (p : String) : Except String (List (Fin 256)) :=
  match rfs.lookup p with
  | none => .error "FileNotFoundError"
  | some st => st.readResult

/-- The `try` block of `FastFileContentReader.read_file`
(src/note_concatenator/infrastructure/file_discovery.py:205-234): stat,
substitute the too-large placeholder or decode the content, compute
`str(file_path.relative_to(base_path))` — which raises `ValueError` when
the file is not under the base — and build the record. -/
def read_file_attempt (rfs : ReaderFS) (max_file_size_bytes : Nat)
    (utf8 utf8sig cp1252 : Codec)
    (file_path project_name base_path : String) : Except String FileInfo := do
  let file_size ← statOf rfs file_path
  let content ←
    if file_size > max_file_size_bytes then
      pure (Content.tooLarge file_size)
    else do
      let bytes ← bytesOf rfs file_path
      pure (read_file_content utf8 utf8sig cp1252 bytes)
  match relativeTo file_path base_path with
  | some rel =>
    pure { relative_path := rel, content := content,
           name := basename file_path, project_origin := project_name,
           size_bytes := some file_size }
  | none => throw "ValueError"

/-- Embeds `FastFileContentReader.read_file`: run the `try` block; on an
exception, the `except` block recomputes `relative_to(base_path)` when
`base_path` is truthy — so a `ValueError` raised there escapes
`read_file` (`none`) — and otherwise produces the read-error record with
`size_bytes = 0`. -/
def read_file (rfs : ReaderFS) (max_file_size_bytes : Nat)
    (utf8 utf8sig cp1252 : Codec)
    (file_path project_name base_path : String) : Option FileInfo :=
  match read_file_attempt rfs max_file_size_bytes utf8 utf8sig cp1252
      file_path project_name base_path with
  | .ok info => some info
  | .error e =>
    if base_path == "" then
      some { relative_path := file_path, content := .readError e,
             name := basename file_path, project_origin := project_name,
             size_bytes := some 0 }
    else
      match relativeTo file_path base_path with
      | some rel =>
        some { relative_path := rel, content := .readError e,
               name := basename file_path, project_origin := project_name,
               size_bytes := some 0 }
      | none => none

/-- Embeds `FastFileContentReader.read_files_parallel`
(src/note_concatenator/infrastructure/file_discovery.py:251-288): every
path is submitted to the pool; a future whose `result()` raises is logged
and dropped (`filterMap`), all others contribute their record; the racy
completion order is erased by the final stable sort on `relative_path`. -/
def read_files_parallel (rfs : ReaderFS) (max_file_size_bytes : Nat)
    (utf8 utf8sig cp1252 : Codec) (file_paths : List String)
    (project_name base_path : String) : List FileInfo :=
  let file_infos := file_paths.filterMap
    (fun p => read_file rfs max_file_size_bytes utf8 utf8sig cp1252
                p project_name base_path)
  sortPyBy (fun a b => pyStrLe a.relative_path b.relative_path) file_infos

/-! ## Helper lemmas -/

theorem listContainsSub_nil (cs : List Char) : listContainsSub cs [] = true := by
  cases cs <;> simp [listContainsSub, List.isPrefixOf]

theorem length_insertSortedBy (le : α → α → Bool) (a : α) :
    ∀ l : List α, (insertSortedBy le a l).length = l.length + 1 := by
  intro l
  induction l with
  | nil => rfl
  | cons b bs ih =>
    unfold insertSortedBy
    split
    · simp
    · simp [ih]

theorem length_sortPyBy (le : α → α → Bool) (l : List α) :
    (sortPyBy le l).length = l.length := by
  induction l with
  | nil => rfl
  | cons a t ih =>
    simp only [sortPyBy, List.foldr_cons] at *
    rw [length_insertSortedBy, ih, List.length_cons]

theorem length_filterMap_of_isSome {f : α → Option β} :
    ∀ l : List α, (∀ a ∈ l, (f a).isSome) → (l.filterMap f).length = l.length := by
  intro l
  induction l with
  | nil => simp
  | cons a t ih =>
    intro h
    rcases Option.isSome_iff_exists.mp (h a (by simp)) with ⟨b, hb⟩
    simp [List.filterMap_cons, hb, ih (fun x hx => h x (by simp [hx]))]

theorem find_files_sublist (fs : V2FS) (root : String) (extensions : List String)
    (cfg : GlobalExcludeConfig) (profile_excludes : List String) :
    (find_files_in_directory fs root extensions cfg profile_excludes).Sublist
      (fs.entries.map V2Entry.relPath) := by
  unfold find_files_in_directory
  exact (List.filter_sublist fs.entries).map V2Entry.relPath

/-! ## Claims -/

/-- C2.  For the extension spec set `[".env"]` the legacy extension filter
`coincide_con_patron` behaves exactly as the claim states — it accepts
`.env`, `.env.local` and `.env.production` and rejects `environment.txt` —
while the v2 filter `_matches_extension`, whose own comment says it
handles "special cases like .env files", does the exact opposite on all
four names (a `.env`-style name has pathlib suffix `""` and starts with
`'.'`, not with the stripped spec `"env"`; `environment.txt` does start
with `"env"`). -/
theorem env_extension_filter_claim_inputs :
    (coincide_con_patron ".env" ".env" = true
      ∧ coincide_con_patron ".env.local" ".env" = true
      ∧ coincide_con_patron ".env.production" ".env" = true
      ∧ coincide_con_patron "environment.txt" ".env" = false)
    ∧ (matches_extension ".env" [".env"] = false
      ∧ matches_extension ".env.local" [".env"] = false
      ∧ matches_extension ".env.production" [".env"] = false
      ∧ matches_extension "environment.txt" [".env"] = true) := by
  decide

/-- C4, counterexample.  The sidecar ignore entry `foo` DOES ignore the
path `foo2/x.md`: `esta_ignorado` uses a plain string `startswith`, not a
segment-by-segment prefix test, refuting the claim's "in particular"
clause at a concrete input. -/
theorem esta_ignorado_foo2_counterexample :
    esta_ignorado "foo2/x.md" (cargar_ignorados ["foo"]) = true := by
  decide

/-- C4, amended.  A candidate is ignored by the legacy sidecar ignore list
iff its normalized form equals some listed entry or some listed entry's
normalized form is a plain string prefix of it (so `foo` does match
`foo2/...`). -/
theorem esta_ignorado_iff (path_relativo : String) (ignorados : List String) :
    esta_ignorado path_relativo ignorados = true ↔
      normpath path_relativo ∈ ignorados ∨
        ∃ e ∈ ignorados,
          pyStartsWith (normpath path_relativo) (normpath e) = true := by
  unfold esta_ignorado
  dsimp only
  split
  · next hc =>
    simp only [true_iff]
    exact Or.inl (by simpa using hc)
  · next hc =>
    simp only [List.any_eq_true]
    constructor
    · rintro ⟨e, he, hpre⟩
      exact Or.inr ⟨e, he, hpre⟩
    · rintro (hmem | ⟨e, he, hpre⟩)
      · exact absurd (by simpa using hmem) (by simpa using hc)
      · exact ⟨e, he, hpre⟩

/-- C5, counterexample.  A root that exists but is a regular file makes
`discover_files` return the empty list normally — no failure is raised at
the discovery boundary, refuting the claimed structural
input-validation error. -/
theorem discover_files_file_root_counterexample :
    discover_files ⟨true, false, [⟨"x.md", true⟩]⟩ "/r" [".md"]
      defaultGlobalExclude [] = .ok [] := rfl

/-- C5, amended.  If the configured search root exists but is not a
directory, discovery returns an empty sequence and raises nothing (the
discovery boundary raises no failure of any kind). -/
theorem discover_files_file_root_empty (fs : V2FS) (root : String)
    (extensions : List String) (cfg : GlobalExcludeConfig)
    (profile_excludes : List String)
    (hex : fs.rootExists = true) (hdir : fs.rootIsDir = false) :
    discover_files fs root extensions cfg profile_excludes = .ok [] := by
  unfold discover_files
  rw [hex, hdir]
  rfl

/-- C5, witness. -/
theorem discover_files_file_root_empty_witness :
    discover_files ⟨true, false, [⟨"a.py", true⟩, ⟨"b.md", true⟩]⟩ "/home/u/notes"
      [".py"] defaultGlobalExclude ["/home/u/notes/sub"] = .ok [] :=
  discover_files_file_root_empty _ _ _ _ _ rfl rfl

/-- C6, counterexample.  The empty pattern matches the path `notes.md`:
it falls through to the substring rule, and the empty string is a
substring of everything — refuting "an empty pattern never matches". -/
theorem matches_pattern_empty_counterexample :
    matches_pattern "notes.md" "" = true := by
  decide

/-- C6, amended.  The path matcher's `_matches_pattern` with the empty
pattern returns `true` for EVERY candidate path. -/
theorem matches_pattern_empty_matches_all (path_str : String) :
    matches_pattern path_str "" = true := by
  unfold matches_pattern
  have h1 : pyEndsWith "" "/" = false := by decide
  have h2 : pyIn "**" "" = false := by decide
  have h3 : pyIn "*" "" = false := by decide
  rw [h1, h2, h3]
  simp only [Bool.false_eq_true, if_false]
  unfold pyIn
  exact listContainsSub_nil _

/-- C9.  Whenever an extension spec in the list has a lowercased form
beginning with a dot and the lowercased file name starts with that spec
minus its leading dots, the v2 filter `_matches_extension` accepts the
name — whatever the name's actual suffix is. -/
theorem matches_extension_dot_spec_overbroad (file_name : String)
    (extensions : List String) (ext : String) (hmem : ext ∈ extensions)
    (hdot : pyStartsWith (pyLower ext) "." = true)
    (hpre : pyStartsWith (pyLower file_name) (lstripDots (pyLower ext)) = true) :
    matches_extension file_name extensions = true := by
  unfold matches_extension
  dsimp only
  split
  · rfl
  · simp only [List.any_eq_true]
    exact ⟨ext, hmem, by simp [hdot, hpre]⟩

/-- C9, witness: spec `.py` accepts `pyproject.toml` and spec `.md`
accepts `mdbook.toml`. -/
theorem matches_extension_dot_spec_overbroad_witness :
    matches_extension "pyproject.toml" [".py"] = true
      ∧ matches_extension "mdbook.toml" [".md"] = true :=
  ⟨matches_extension_dot_spec_overbroad _ _ ".py" (by decide) (by decide)
      (by decide),
    matches_extension_dot_spec_overbroad _ _ ".md" (by decide) (by decide)
      (by decide)⟩

/-- C10.  Whatever the `utf-8`, `utf-8-sig` and `cp1252` codecs do on a
byte sequence, the fallback chain of `_read_file_content` succeeds at or
before the `latin1` attempt (the `latin1` charmap is total), so the
`"[Unable to decode file with common encodings]"` branch is unreachable:
the v2 reader never produces the decode-failure placeholder. -/
theorem read_file_content_never_undecodable (utf8 utf8sig cp1252 : Codec)
    (bytes : List (Fin 256)) :
    read_file_content utf8 utf8sig cp1252 bytes ≠ .undecodable := by
  unfold read_file_content
  cases h1 : utf8 bytes with
  | some s => simp [tryEncodings, h1]
  | none =>
    cases h2 : utf8sig bytes with
    | some s => simp [tryEncodings, h1, h2]
    | none => simp [tryEncodings, h1, h2, latin1Decode]

theorem read_file_isSome_of_under_base (rfs : ReaderFS) (maxB : Nat)
    (u1 u2 u3 : Codec) (p pn base : String)
    (h : (relativeTo p base).isSome) :
    (read_file rfs maxB u1 u2 u3 p pn base).isSome := by
  unfold read_file
  cases hat : read_file_attempt rfs maxB u1 u2 u3 p pn base with
  | ok info => simp
  | error e =>
    rcases Option.isSome_iff_exists.mp h with ⟨rel, hrel⟩
    by_cases hb : base = ""
    · simp [hb]
    · simp [hb, hrel]

/-- C8.  Whenever the stat size of a file exceeds the configured byte
ceiling and the file resolves against the base path, `read_file` returns
the record whose content is the too-large placeholder — which is not the
text of any decoded content, in particular not the file's own. -/
theorem read_file_too_large (rfs : ReaderFS) (max_file_size_bytes : Nat)
    (utf8 utf8sig cp1252 : Codec) (file_path project_name base_path : String)
    (file_size : Nat) (rel : String)
    (hstat : statOf rfs file_path = .ok file_size)
    (hsize : file_size > max_file_size_bytes)
    (hrel : relativeTo file_path base_path = some rel) :
    read_file rfs max_file_size_bytes utf8 utf8sig cp1252
        file_path project_name base_path
      = some { relative_path := rel, content := .tooLarge file_size,
               name := basename file_path, project_origin := project_name,
               size_bytes := some file_size }
      ∧ ∀ s, Content.tooLarge file_size ≠ Content.text s := by
  refine ⟨?_, fun s => by simp⟩
  unfold read_file read_file_attempt
  simp [hstat, hsize, hrel, Bind.bind, Except.bind, Pure.pure, Except.pure]

/-- C8, witness: with a 1-byte ceiling, a 5-byte file containing
`"hello"` yields the too-large placeholder record, not the text
`"hello"`. -/
theorem read_file_too_large_witness :
    read_file [("/r/h.txt", ⟨.ok 5, .ok [104, 101, 108, 108, 111]⟩)] 1
        asciiDecode asciiDecode asciiDecode "/r/h.txt" "p" "/r"
      = some { relative_path := "h.txt", content := .tooLarge 5,
               name := "h.txt", project_origin := "p", size_bytes := some 5 }
      ∧ ∀ s, Content.tooLarge 5 ≠ Content.text s :=
  read_file_too_large _ 1 _ _ _ _ _ _ 5 "h.txt" rfl (by decide) (by decide)

/-- C7, counterexample.  A perfectly readable file whose path is not
under the base path contributes NO record: `relative_to` raises
`ValueError` inside the `try` block and again inside the `except`
handler, the exception escapes to `future.result()` and the batch drops
the file — one input path, zero records. -/
theorem read_files_parallel_drops_counterexample :
    read_files_parallel [("/b/f.txt", ⟨.ok 1, .ok [(120 : Fin 256)]⟩)] 100
      asciiDecode asciiDecode asciiDecode ["/b/f.txt"] "p" "/a" = [] := rfl

/-- C7, amended.  For input paths that each resolve against the base
path, the parallel reader is total: every per-file stat/read/decode
failure is converted into a record rather than an exception, and every
input path contributes exactly one record, so the batch never shrinks or
aborts. -/
theorem read_files_parallel_total_under_base (rfs : ReaderFS)
    (max_file_size_bytes : Nat) (utf8 utf8sig cp1252 : Codec)
    (file_paths : List String) (project_name base_path : String)
    (hbase : ∀ p ∈ file_paths, (relativeTo p base_path).isSome) :
    (∀ p ∈ file_paths,
        (read_file rfs max_file_size_bytes utf8 utf8sig cp1252
          p project_name base_path).isSome)
      ∧ (read_files_parallel rfs max_file_size_bytes utf8 utf8sig cp1252
          file_paths project_name base_path).length = file_paths.length := by
  have hs : ∀ p ∈ file_paths,
      (read_file rfs max_file_size_bytes utf8 utf8sig cp1252
        p project_name base_path).isSome :=
    fun p hp => read_file_isSome_of_under_base _ _ _ _ _ _ _ _ (hbase p hp)
  refine ⟨hs, ?_⟩
  unfold read_files_parallel
  rw [length_sortPyBy, length_filterMap_of_isSome _ hs]

/-- C7, witness: two files under the base, one of which fails with a
permission error at stat time, still produce exactly two records. -/
theorem read_files_parallel_total_under_base_witness :
    (∀ p ∈ ["/r/a.txt", "/r/err.txt"],
        (read_file [("/r/a.txt", ⟨.ok 1, .ok [(120 : Fin 256)]⟩),
            ("/r/err.txt", ⟨.error "PermissionError", .error "PermissionError"⟩)]
          100 asciiDecode asciiDecode asciiDecode p "p" "/r").isSome)
      ∧ (read_files_parallel [("/r/a.txt", ⟨.ok 1, .ok [(120 : Fin 256)]⟩),
            ("/r/err.txt", ⟨.error "PermissionError", .error "PermissionError"⟩)]
          100 asciiDecode asciiDecode asciiDecode ["/r/a.txt", "/r/err.txt"]
          "p" "/r").length = 2 :=
  read_files_parallel_total_under_base _ _ _ _ _ _ _ _ (by decide)

/-- C1, counterexample.  When the filesystem's `rglob` enumeration
happens to yield `b.md` before `a.md` (its order is unspecified),
`discover_files` returns exactly that order: `["b.md", "a.md"]`, which is
not sorted by relative path — `discover_files` never sorts. -/
theorem discover_files_unsorted_counterexample :
    discover_files ⟨true, true, [⟨"b.md", true⟩, ⟨"a.md", true⟩]⟩ "/r" [".md"]
        defaultGlobalExclude [] = .ok ["b.md", "a.md"]
      ∧ ¬ List.Sorted (fun x y : String => pyStrLe x y = true)
          ["b.md", "a.md"] :=
  ⟨rfl, by decide⟩

/-- C1, amended.  Whatever list `discover_files` returns is a subsequence
of the walk's enumeration — so it contains no duplicate relative paths
whenever the walk enumerates each path once (as `rglob` does) — but it
stays in enumeration order; it is not sorted by relative path. -/
theorem discover_files_nodup_enumeration_order (fs : V2FS) (root : String)
    (extensions : List String) (cfg : GlobalExcludeConfig)
    (profile_excludes : List String) (l : List String)
    (hnd : (fs.entries.map V2Entry.relPath).Nodup)
    (hl : discover_files fs root extensions cfg profile_excludes = .ok l) :
    l.Nodup ∧ l.Sublist (fs.entries.map V2Entry.relPath) := by
  unfold discover_files at hl
  split at hl
  · simp only [Except.ok.injEq] at hl
    subst hl
    exact ⟨List.nodup_nil, List.nil_sublist _⟩
  · split at hl
    · simp only [Except.ok.injEq] at hl
      subst hl
      exact ⟨hnd.sublist (find_files_sublist _ _ _ _ _),
        find_files_sublist _ _ _ _ _⟩
    · simp only [Except.ok.injEq] at hl
      subst hl
      exact ⟨List.nodup_nil, List.nil_sublist _⟩

/-- C1, witness. -/
theorem discover_files_nodup_enumeration_order_witness :
    (["b.md", "a.md"] : List String).Nodup
      ∧ (["b.md", "a.md"] : List String).Sublist ["b.md", "a.md"] :=
  discover_files_nodup_enumeration_order
    ⟨true, true, [⟨"b.md", true⟩, ⟨"a.md", true⟩]⟩ "/r" [".md"]
    defaultGlobalExclude [] ["b.md", "a.md"] (by decide) rfl

/-- C3, counterexample.  `.git` is in the legacy built-in skip-set, yet
the v2 discovery engine — whose `rglob` scan performs no built-in pruning
and whose default global excludes name neither version-control nor IDE
directories — includes the matching file `.git/x.md` in its output. -/
theorem v2_discovery_includes_skip_set_counterexample :
    debe_ignorar_carpeta ".git" = true
      ∧ discover_files ⟨true, true, [⟨".git", false⟩, ⟨".git/x.md", true⟩]⟩
          "/r" [".md"] defaultGlobalExclude [] = .ok [".git/x.md"] :=
  ⟨by decide, rfl⟩

theorem mem_ite_nil_left_elim {c : Prop} [Decidable c] {l : List α} {p : α}
    (h : p ∈ (if c then ([] : List α) else l)) : ¬c ∧ p ∈ l := by
  split at h
  · exact absurd h (List.not_mem_nil p)
  · next hc => exact ⟨hc, h⟩

mutual
theorem recolectar_no_pruned_segment_aux (t : DirTree)
    (rel_dir ignorados extensiones : List String)
    (hrel : ∀ s ∈ rel_dir, debe_ignorar_carpeta s = false) :
    ∀ p ∈ recolectar_archivos_a_procesar t rel_dir ignorados extensiones,
      ∀ s ∈ p.dropLast, debe_ignorar_carpeta s = false := by
  cases t with
  | node subdirs files =>
    intro p hp s hs
    unfold recolectar_archivos_a_procesar at hp
    dsimp only at hp
    rcases List.mem_append.mp hp with h | h
    · obtain ⟨-, h⟩ := mem_ite_nil_left_elim h
      obtain ⟨archivo, _, heq⟩ := List.mem_filterMap.mp h
      split at heq
      · split at heq
        · exact absurd heq (by simp)
        · simp only [Option.some.injEq] at heq
          subst heq
          have hdl : (rel_dir ++ [archivo]).dropLast = rel_dir := by simp
          rw [hdl] at hs
          exact hrel s hs
      · exact absurd heq (by simp)
    · exact recolectar_sub_no_pruned_segment_aux subdirs rel_dir ignorados
        extensiones hrel p h s hs

theorem recolectar_sub_no_pruned_segment_aux
    (subdirs : List (String × DirTree))
    (rel_dir ignorados extensiones : List String)
    (hrel : ∀ s ∈ rel_dir, debe_ignorar_carpeta s = false) :
    ∀ p ∈ recolectar_subcarpetas subdirs rel_dir ignorados extensiones,
      ∀ s ∈ p.dropLast, debe_ignorar_carpeta s = false := by
  cases subdirs with
  | nil =>
    intro p hp
    unfold recolectar_subcarpetas at hp
    exact absurd hp (List.not_mem_nil p)
  | cons cabeza resto =>
    obtain ⟨nombre, sub⟩ := cabeza
    intro p hp s hs
    unfold recolectar_subcarpetas at hp
    rcases List.mem_append.mp hp with h | h
    · obtain ⟨hig, h⟩ := mem_ite_nil_left_elim h
      have hrel2 : ∀ x ∈ rel_dir ++ [nombre], debe_ignorar_carpeta x = false := by
        intro x hx
        rcases List.mem_append.mp hx with hx | hx
        · exact hrel x hx
        · simp only [List.mem_singleton] at hx
          subst hx
          exact Bool.eq_false_iff.mpr hig
      exact recolectar_no_pruned_segment_aux sub (rel_dir ++ [nombre])
        ignorados extensiones hrel2 p h s hs
    · exact recolectar_sub_no_pruned_segment_aux resto rel_dir ignorados
        extensiones hrel p h s hs
end

/-- C3, amended.  The legacy walker satisfies the claim: no relative path
in `recolectar_archivos_a_procesar`'s output has a DIRECTORY segment in
the built-in skip-set, whatever the ignore list and extensions — those
directories are pruned before descent.  (The v2 engine has no built-in
skip-set: its exclusions are configuration patterns, and the defaults do
not cover version-control or IDE directories, so the guarantee holds only
for the legacy walker.) -/
theorem legacy_walk_never_yields_pruned_segment (t : DirTree)
    (ignorados extensiones : List String) (p : List String)
    (hp : p ∈ recolectar_archivos_a_procesar t [] ignorados extensiones) :
    ∀ s ∈ p.dropLast, debe_ignorar_carpeta s = false :=
  recolectar_no_pruned_segment_aux t [] ignorados extensiones (by simp) p hp

/-- C3, witness. -/
theorem legacy_walk_never_yields_pruned_segment_witness :
    debe_ignorar_carpeta "docs" = false :=
  legacy_walk_never_yields_pruned_segment
    (.node [("docs", .node [] ["a.md"])] []) [] [".md"] ["docs", "a.md"]
    (by decide) "docs" (by decide)

end JoinNotes
